import Mathlib

/-!
Verification of the Resilient Stream Relay (src/api/account-events.ts).

The file embeds the relay shallowly:

* `jsonParse` models the JavaScript builtin JSON.parse (returning
  `Option Json` instead of throwing);
* `isAccountRelatedEvent` embeds the classifier of the same name;
* `broadcastMsg` embeds the wss.clients.forEach broadcast loop of the
  WebSocket variant (a throwing send aborts the forEach iteration, as in
  JavaScript);
* `processEvts` / `processTxns` / `runUnits` embed the body of the
  for-await loop of streamLiveEvents over the units yielded by the
  upstream transaction stream, accumulating the Delivered Events that
  were built and the set of clients each was sent to; `Except` carries
  the trace on the faulting path as well;
* `superviseStep` / `runRelay` embed the retry logic: the recursive
  resume calls streamLiveEvents(0, c) / streamLiveEvents(0, c+1) and the
  top-level catch with its retryCount < MAX_RETRIES bound.
-/

/-- JSON values, as produced by a successful JSON.parse.  Numbers keep
their source lexeme: no claim inspects numeric values. -/
inductive Json where
  | null
  | bool (b : Bool)
  | num (raw : String)
  | str (s : String)
  | arr (elems : List Json)
  | obj (fields : List (String × Json))

/-- JSON whitespace. -/
def isJsonWs (c : Char) : Bool :=
  c = ' ' || c = '\t' || c = '\n' || c = '\r'

/-- Drop leading JSON whitespace. -/
def skipWs : List Char → List Char
  | [] => []
  | c :: rest => if isJsonWs c then skipWs rest else c :: rest

/-- Hexadecimal digit test, for \u escapes. -/
def isHexDigit (c : Char) : Bool :=
  c.isDigit || ('a' ≤ c && c ≤ 'f') || ('A' ≤ c && c ≤ 'F')

/-- Body of a JSON string literal, after the opening quote; returns the
decoded string and the input past the closing quote. -/
def parseStringBody : Nat → List Char → List Char → Option (String × List Char)
  | 0, _, _ => none
  | _ + 1, acc, '"' :: rest => some (String.mk acc.reverse, rest)
  | fuel + 1, acc, '\\' :: e :: rest =>
    match e with
    | '"' => parseStringBody fuel ('"' :: acc) rest
    | '\\' => parseStringBody fuel ('\\' :: acc) rest
    | '/' => parseStringBody fuel ('/' :: acc) rest
    | 'b' => parseStringBody fuel ('\x08' :: acc) rest
    | 'f' => parseStringBody fuel ('\x0c' :: acc) rest
    | 'n' => parseStringBody fuel ('\n' :: acc) rest
    | 'r' => parseStringBody fuel ('\r' :: acc) rest
    | 't' => parseStringBody fuel ('\t' :: acc) rest
    | 'u' =>
      match rest with
      | h1 :: h2 :: h3 :: h4 :: rest2 =>
        if isHexDigit h1 && isHexDigit h2 && isHexDigit h3 && isHexDigit h4 then
          parseStringBody fuel ('?' :: acc) rest2
        else none
      | _ => none
    | _ => none
  | fuel + 1, acc, c :: rest =>
    if c.val < 0x20 then none else parseStringBody fuel (c :: acc) rest
  | _ + 1, _, [] => none

/-- JSON number lexeme starting the input: returns the lexeme and the
rest, or none when the input does not start with a valid number. -/
def parseNum (cs : List Char) : Option (String × List Char) :=
  let (sign, cs1) :=
    match cs with
    | '-' :: r => (['-'], r)
    | _ => (([] : List Char), cs)
  match cs1 with
  | '0' :: r =>
    match r with
    | d :: _ =>
      if d.isDigit then none
      else afterInt (sign ++ ['0']) r
    | [] => afterInt (sign ++ ['0']) []
  | c :: _ =>
    if c.isDigit then
      let (ds, r) := cs1.span Char.isDigit
      afterInt (sign ++ ds) r
    else none
  | [] => none
where
  /-- Optional fraction then optional exponent. -/
  afterInt (acc : List Char) (r : List Char) : Option (String × List Char) :=
    let (acc1, r1) :=
      match r with
      | '.' :: r2 =>
        match r2.span Char.isDigit with
        | ([], _) => (([] : List Char), none)
        | (ds, r3) => (acc ++ '.' :: ds, some r3)
      | _ => (acc, some r)
    match r1 with
    | none => none
    | some r2 =>
      match r2 with
      | 'e' :: r3 => afterExp acc1 r3
      | 'E' :: r3 => afterExp acc1 r3
      | _ => some (String.mk acc1, r2)
  /-- Exponent digits after e/E. -/
  afterExp (acc : List Char) (r : List Char) : Option (String × List Char) :=
    let (sgn, r1) :=
      match r with
      | '+' :: r2 => (['+'], r2)
      | '-' :: r2 => (['-'], r2)
      | _ => (([] : List Char), r)
    match r1.span Char.isDigit with
    | ([], _) => none
    | (ds, r2) => some (String.mk (acc ++ 'e' :: sgn ++ ds), r2)

mutual

/-- One JSON value at the head of the input (whitespace skipped first). -/
def parseVal : Nat → List Char → Option (Json × List Char)
  | 0, _ => none
  | fuel + 1, cs =>
    match skipWs cs with
    | 'n' :: 'u' :: 'l' :: 'l' :: rest => some (.null, rest)
    | 't' :: 'r' :: 'u' :: 'e' :: rest => some (.bool true, rest)
    | 'f' :: 'a' :: 'l' :: 's' :: 'e' :: rest => some (.bool false, rest)
    | '"' :: rest =>
      match parseStringBody (fuel + 1) [] rest with
      | some (s, rest2) => some (.str s, rest2)
      | none => none
    | '\x5b' :: rest => parseElems fuel rest
    | '\x7b' :: rest => parseFields fuel rest
    | cs2 =>
      match parseNum cs2 with
      | some (raw, rest) => some (.num raw, rest)
      | none => none

/-- Array elements after the opening bracket. -/
def parseElems : Nat → List Char → Option (Json × List Char)
  | 0, _ => none
  | fuel + 1, cs =>
    match skipWs cs with
    | '\x5d' :: rest => some (.arr [], rest)
    | cs2 =>
      match parseVal fuel cs2 with
      | none => none
      | some (v, rest) => parseElemsTail fuel [v] rest

/-- Remaining array elements, each preceded by a comma. -/
def parseElemsTail : Nat → List Json → List Char → Option (Json × List Char)
  | 0, _, _ => none
  | fuel + 1, acc, cs =>
    match skipWs cs with
    | '\x5d' :: rest => some (.arr acc.reverse, rest)
    | ',' :: rest =>
      match parseVal fuel rest with
      | none => none
      | some (v, rest2) => parseElemsTail fuel (v :: acc) rest2
    | _ => none

/-- Object fields after the opening brace. -/
def parseFields : Nat → List Char → Option (Json × List Char)
  | 0, _ => none
  | fuel + 1, cs =>
    match skipWs cs with
    | '\x7d' :: rest => some (.obj [], rest)
    | cs2 =>
      match parseField fuel cs2 with
      | none => none
      | some (kv, rest) => parseFieldsTail fuel [kv] rest

/-- Remaining object fields, each preceded by a comma. -/
def parseFieldsTail : Nat → List (String × Json) → List Char →
    Option (Json × List Char)
  | 0, _, _ => none
  | fuel + 1, acc, cs =>
    match skipWs cs with
    | '\x7d' :: rest => some (.obj acc.reverse, rest)
    | ',' :: rest =>
      match parseField fuel rest with
      | none => none
      | some (kv, rest2) => parseFieldsTail fuel (kv :: acc) rest2
    | _ => none

/-- One key/value pair of an object. -/
def parseField : Nat → List Char → Option ((String × Json) × List Char)
  | 0, _ => none
  | fuel + 1, cs =>
    match skipWs cs with
    | '"' :: rest =>
      match parseStringBody (fuel + 1) [] rest with
      | none => none
      | some (k, rest2) =>
        match skipWs rest2 with
        | ':' :: rest3 =>
          match parseVal fuel rest3 with
          | none => none
          | some (v, rest4) => some ((k, v), rest4)
        | _ => none
    | _ => none

end

/-- Model of the JavaScript builtin JSON.parse: `some` on a string that
is a single JSON value (with surrounding whitespace), `none` where
JSON.parse throws.  Fuel is generous; every claim evaluates it only on
concrete strings. -/
def jsonParse (s : String) : Option Json :=
  match parseVal (2 * s.length + 2) s.data with
  | none => none
  | some (v, rest) => if (skipWs rest).isEmpty then some v else none

/-! ### Configuration constants (src/api/account-events.ts lines 6-9) -/

/-- Default MODULE_ADDRESS from the source. -/
def MODULE_ADDRESS : String :=
  "0xf57ffdaa57e13bc27ac9b46663749a5d03a846ada4007dfdf1483d482b48dace"

/-- MAX_RETRIES = 5. -/
def MAX_RETRIES : Nat := 5

/-- The Interest Predicate Table: the three fully-qualified type
identifiers the classifier compares against. -/
def interestTable : List String :=
  [ MODULE_ADDRESS ++ "::truthoracle::MarketCreated",
   MODULE_ADDRESS ++ "::truthoracle::buy_shares",
   MODULE_ADDRESS ++ "::truthoracle::withdraw_payout"]

/-! ### Data model -/

/-- A raw event attached to a transaction: type identifier string and
encoded payload string. -/
structure RawEvent where
  typeStr : String
  data : String
deriving DecidableEq

/-- An upstream transaction: version, timestamp seconds, events. -/
structure Txn where
  version : Nat
  timestampSeconds : Nat
  events : List RawEvent
deriving DecidableEq

/-- A gRPC status: code and details, as carried by error and status
units. -/
structure GrpcStatus where
  code : Nat
  details : String
deriving DecidableEq

/-- One unit yielded by the upstream transaction stream. -/
inductive StreamUnit where
  | data (chainId : Nat) (transactions : List Txn)
  | error (st : GrpcStatus)
  | status (st : GrpcStatus)
  | metadata
deriving DecidableEq

/-- The classifier isAccountRelatedEvent (lines 15-39): JSON.parse the
payload inside a try (any throw is caught and yields false), then three
exact string comparisons of the type identifier. -/
def isAccountRelatedEvent (event : RawEvent) : Bool :=
  match jsonParse event.data with
  | none => false
  | some _ =>
    if event.typeStr = MODULE_ADDRESS ++ "::truthoracle::MarketCreated" then
      true
    else if event.typeStr = MODULE_ADDRESS ++ "::truthoracle::buy_shares" then
      true
    else if event.typeStr = MODULE_ADDRESS ++ "::truthoracle::withdraw_payout" then
      true
    else
      false

/-! ### Delivery sinks: the WebSocket broadcast of the WebSocket variant -/

/-- The ws readyState constants. -/
def READY_CONNECTING : Nat := 0

/-- readyState OPEN = 1, the only state the broadcast sends to. -/
def READY_OPEN : Nat := 1

/-- readyState CLOSING. -/
def READY_CLOSING : Nat := 2

/-- readyState CLOSED. -/
def READY_CLOSED : Nat := 3

/-- A connected WebSocket client as the broadcast loop sees it: its
readyState, and whether a send call on it returns normally (sendOk =
false models client.send throwing). -/
structure Client where
  readyState : Nat
  sendOk : Bool
deriving DecidableEq

/-- The broadcast loop (lines 83-87): wss.clients.forEach sending the
message to every client whose readyState is OPEN.  There is no try/catch
around client.send, so a throwing send aborts the forEach iteration and
propagates; the result lists the clients the message was sent to, on the
error side those sent before the throw. -/
def broadcastMsg : List Client → Except (List Client) (List Client)
  | [] => .ok []
  | c :: rest =>
    if c.readyState = READY_OPEN then
      if c.sendOk then
        match broadcastMsg rest with
        | .ok sent => .ok (c :: sent)
        | .error sent => .error (c :: sent)
      else .error []
    else broadcastMsg rest

/-- A Delivered Event: the normalized record built for a matched raw
event (the data field of the broadcast message). -/
structure Delivered where
  version : Nat
  event_type : String
  event_data : Json
  timestamp : Nat

/-- One emission: the Delivered Event built, and the clients it was
sent to. -/
abbrev Emit := Delivered × List Client

/-- Extract the trace from either side of an Except. -/
def emitted : Except (List Emit) (List Emit) → List Emit
  | .ok l => l
  | .error l => l

/-- The inner event loop of the data case (lines 67-90): for each raw
event of one transaction, classify; on a match rebuild the payload with
JSON.parse (line 78) and broadcast.  A throw anywhere (the unreachable
re-parse, or a sink send) propagates, carrying the emissions made so
far on the error side. -/
def processEvts (clients : List Client) (version timestamp : Nat) :
    List RawEvent → Except (List Emit) (List Emit)
  | [] => .ok []
  | e :: rest =>
    if isAccountRelatedEvent e then
      match jsonParse e.data with
      | some j =>
        let d : Delivered :=
          { version := version, event_type := e.typeStr,
            event_data := j, timestamp := timestamp }
        match broadcastMsg clients with
        | .ok sent =>
          match processEvts clients version timestamp rest with
          | .ok l => .ok ((d, sent) :: l)
          | .error l => .error ((d, sent) :: l)
        | .error sent => .error [(d, sent)]
      | none => .error []
    else
      processEvts clients version timestamp rest

/-- The transaction loop of the data case (lines 62-91): version and
timestamp are taken from each transaction and passed to its own event
loop. -/
def processTxns (clients : List Client) :
    List Txn → Except (List Emit) (List Emit)
  | [] => .ok []
  | t :: rest =>
    match processEvts clients t.version t.timestampSeconds t.events with
    | .ok l =>
      match processTxns clients rest with
      | .ok l2 => .ok (l ++ l2)
      | .error l2 => .error (l ++ l2)
    | .error l => .error l

/-- How one Stream Session ends. -/
inductive SessionResult where
  | exhausted
  | resumeSame
  | resumeNext
  | fault
deriving DecidableEq

/-- A finished session: the emissions it made and how it ended. -/
structure SessionRun where
  trace : List Emit
  result : SessionResult

/-- Substring test on character lists, for String.prototype.includes. -/
def subOf (pat : List Char) : List Char → Bool
  | [] => pat.isEmpty
  | c :: rest => pat.isPrefixOf (c :: rest) || subOf pat rest

/-- Model of JavaScript String.prototype.includes. -/
def strIncludes (s pat : String) : Bool :=
  subOf pat.data s.data

/-- The for-await switch of streamLiveEvents (lines 51-118) over the
units one physical connection yields:

* data: chainId ≠ 2 throws before any transaction is processed
  (lines 53-57); otherwise the transaction loop runs and a throw inside
  it faults the session;
* error: code 14 with details "Connection dropped" returns via the
  recursive resume call; any other error falls through to the metadata
  case's break and the loop continues (the error case has no break);
* metadata: break;
* status: for a non-zero code, code 13 with details containing
  "invalid wire type" resumes at the next cursor, code 14 with
  "Connection dropped" resumes at the same cursor, anything else
  continues the loop. -/
def runUnits (clients : List Client) : List StreamUnit → SessionRun
  | [] => { trace := [], result := .exhausted }
  | u :: rest =>
    match u with
    | .data chainId txns =>
      if chainId ≠ 2 then { trace := [], result := .fault }
      else
        match processTxns clients txns with
        | .ok l =>
          let r := runUnits clients rest
          { trace := l ++ r.trace, result := r.result }
        | .error l => { trace := l, result := .fault }
    | .error st =>
      if st.code = 14 ∧ st.details = "Connection dropped" then
        { trace := [], result := .resumeSame }
      else runUnits clients rest
    | .metadata => runUnits clients rest
    | .status st =>
      if st.code ≠ 0 then
        if st.code = 13 ∧ strIncludes st.details "invalid wire type" then
          { trace := [], result := .resumeNext }
        else if st.code = 14 ∧ st.details = "Connection dropped" then
          { trace := [], result := .resumeSame }
        else runUnits clients rest
      else runUnits clients rest

/-! ### The Reconnect Supervisor (retry logic of streamLiveEvents) -/

/-- The two arguments streamLiveEvents carries across calls. -/
structure SupState where
  retryCount : Nat
  currentVersion : Nat
deriving DecidableEq

/-- What the supervisor does after a session ends. -/
inductive SupOutcome where
  | halted
  | abandoned
  | step (next : SupState) (delayed : Bool)
deriving DecidableEq

/-- How streamLiveEvents reacts to the way its for-await loop ended:
the resume paths call streamLiveEvents(0, version) or
streamLiveEvents(0, version + 1) with no delay (lines 98, 109, 113); a
throw reaches the catch (lines 120-130), which retries at the same
cursor after the 5 s delay while retryCount < MAX_RETRIES and otherwise
logs and returns; a normally exhausted stream returns. -/
def superviseStep (st : SupState) (r : SessionResult) : SupOutcome :=
  match r with
  | .exhausted => .halted
  | .resumeSame => .step { retryCount := 0, currentVersion := st.currentVersion } false
  | .resumeNext => .step { retryCount := 0, currentVersion := st.currentVersion + 1 } false
  | .fault =>
    if st.retryCount < MAX_RETRIES then
      .step { retryCount := st.retryCount + 1, currentVersion := st.currentVersion } true
    else
      .abandoned

/-- The whole relay as iterated supervisor steps.  feed gives the units
the n-th connection attempt yields; the result is the total number of
connection attempts made before the relay returns (fuel exhaustion gives
none).  Returning via some models streamLiveEvents returning normally:
the catch never rethrows, so the hosting process never sees a throw. -/
def runRelay (clients : List Client) (feed : Nat → List StreamUnit) :
    Nat → SupState → Nat → Option Nat
  | 0, _, _ => none
  | fuel + 1, st, attempts =>
    match superviseStep st (runUnits clients (feed attempts)).result with
    | .halted => some (attempts + 1)
    | .abandoned => some (attempts + 1)
    | .step st2 _ => runRelay clients feed fuel st2 (attempts + 1)

/-- The clients a broadcast reached, on either side of the Except. -/
def recipOf : Except (List Client) (List Client) → List Client
  | .ok l => l
  | .error l => l

/-! ### Helper lemmas -/

/-- The classifier in closed form: payload parses and the type
identifier is one of the three table entries. -/
theorem isAccountRelatedEvent_eq (e : RawEvent) :
    isAccountRelatedEvent e =
      ((jsonParse e.data).isSome && decide (e.typeStr ∈ interestTable)) := by
  cases h : jsonParse e.data with
  | none => simp [isAccountRelatedEvent, h]
  | some j =>
    simp only [isAccountRelatedEvent, h, Option.isSome_some, Bool.true_and,
      interestTable, List.mem_cons, List.not_mem_nil, or_false]
    split_ifs with h1 h2 h3 <;> simp_all

/-- A matched event's payload parses. -/
theorem classifier_parse_isSome (e : RawEvent)
    (h : isAccountRelatedEvent e = true) : (jsonParse e.data).isSome := by
  rw [isAccountRelatedEvent_eq] at h
  exact (Bool.and_eq_true _ _ |>.mp h).1

/-- When every OPEN client's send returns normally, the broadcast loop
sends to exactly the OPEN clients, in order. -/
theorem broadcastMsg_ok (clients : List Client)
    (h : ∀ c ∈ clients, c.readyState = READY_OPEN → c.sendOk = true) :
    broadcastMsg clients =
      .ok (clients.filter (fun c => decide (c.readyState = READY_OPEN))) := by
  induction clients with
  | nil => rfl
  | cons c rest ih =>
    have hrest : ∀ x ∈ rest, x.readyState = READY_OPEN → x.sendOk = true :=
      fun x hx => h x (List.mem_cons_of_mem _ hx)
    by_cases hc : c.readyState = READY_OPEN
    · have hok : c.sendOk = true := h c (List.mem_cons_self _ _) hc
      simp [broadcastMsg, hc, hok, ih hrest, List.filter_cons]
    · simp [broadcastMsg, hc, ih hrest, List.filter_cons]

/-- Every client a broadcast reached was OPEN at the time. -/
theorem broadcastMsg_recipients_open (clients : List Client) :
    ∀ x ∈ recipOf (broadcastMsg clients), x.readyState = READY_OPEN := by
  induction clients with
  | nil => intro x hx; simp [broadcastMsg, recipOf] at hx
  | cons c rest ih =>
    intro x hx
    by_cases hc : c.readyState = READY_OPEN
    · by_cases hok : c.sendOk = true
      · simp only [broadcastMsg, hc, if_true, hok] at hx
        cases hrec : broadcastMsg rest with
        | ok sent =>
          rw [hrec] at hx
          simp only [recipOf, List.mem_cons] at hx
          rcases hx with rfl | hx
          · exact hc
          · exact ih x (by simpa [recipOf, hrec] using hx)
        | error sent =>
          rw [hrec] at hx
          simp only [recipOf, List.mem_cons] at hx
          rcases hx with rfl | hx
          · exact hc
          · exact ih x (by simpa [recipOf, hrec] using hx)
      · simp only [broadcastMsg, hc, if_true, hok, Bool.not_eq_true] at hx
        simp [recipOf] at hx
    · simp only [broadcastMsg, hc, if_false] at hx
      exact ih x hx

/-- Dropping a non-OPEN client from anywhere in the client set leaves
the broadcast result unchanged. -/
theorem broadcastMsg_skip (pre post : List Client) (c : Client)
    (hc : c.readyState ≠ READY_OPEN) :
    broadcastMsg (pre ++ c :: post) = broadcastMsg (pre ++ post) := by
  induction pre with
  | nil => simp [broadcastMsg, hc]
  | cons p rest ih =>
    simp only [List.cons_append, broadcastMsg, List.append_eq, ih]

/-- The event loop depends on the client set only through the broadcast
it performs. -/
theorem processEvts_congr (cl1 cl2 : List Client)
    (h : broadcastMsg cl1 = broadcastMsg cl2) (v ts : Nat)
    (evts : List RawEvent) :
    processEvts cl1 v ts evts = processEvts cl2 v ts evts := by
  induction evts with
  | nil => rfl
  | cons e rest ih =>
    simp only [processEvts, h, ih]

/-- The transaction loop depends on the client set only through the
broadcast. -/
theorem processTxns_congr (cl1 cl2 : List Client)
    (h : broadcastMsg cl1 = broadcastMsg cl2) (txns : List Txn) :
    processTxns cl1 txns = processTxns cl2 txns := by
  induction txns with
  | nil => rfl
  | cons t rest ih =>
    simp only [processTxns, processEvts_congr cl1 cl2 h, ih]

/-- The whole session depends on the client set only through the
broadcast. -/
theorem runUnits_congr (cl1 cl2 : List Client)
    (h : broadcastMsg cl1 = broadcastMsg cl2) (us : List StreamUnit) :
    runUnits cl1 us = runUnits cl2 us := by
  induction us with
  | nil => rfl
  | cons u rest ih =>
    cases u with
    | data chainId txns =>
      simp only [runUnits, processTxns_congr cl1 cl2 h, ih]
    | error st => simp only [runUnits, ih]
    | metadata => simp only [runUnits, ih]
    | status st => simp only [runUnits, ih]

/-- When no send throws, the event loop succeeds and emits exactly one
Delivered Event per matched raw event, in order, each sent to exactly
the OPEN clients. -/
theorem processEvts_ok (clients : List Client)
    (hok : ∀ c ∈ clients, c.readyState = READY_OPEN → c.sendOk = true)
    (v ts : Nat) (evts : List RawEvent) :
    processEvts clients v ts evts =
      .ok ((evts.filter isAccountRelatedEvent).map (fun e =>
        ({ version := v, event_type := e.typeStr,
           event_data := (jsonParse e.data).getD .null, timestamp := ts },
         clients.filter (fun c => decide (c.readyState = READY_OPEN))))) := by
  induction evts with
  | nil => rfl
  | cons e rest ih =>
    by_cases hcl : isAccountRelatedEvent e = true
    · have hs := classifier_parse_isSome e hcl
      cases hj : jsonParse e.data with
      | none => rw [hj] at hs; simp at hs
      | some j =>
        simp [processEvts, hcl, hj, broadcastMsg_ok clients hok, ih,
          List.filter_cons]
    · simp [processEvts, hcl, ih, List.filter_cons]

/-- Every emission of the event loop (also on a faulting run) carries
the version and timestamp the loop was given, and the type identifier
of a matched event of the list. -/
theorem processEvts_mem (clients : List Client) (v ts : Nat)
    (evts : List RawEvent) :
    ∀ p ∈ emitted (processEvts clients v ts evts),
      p.1.version = v ∧ p.1.timestamp = ts ∧
        ∃ e ∈ evts, isAccountRelatedEvent e = true ∧
          p.1.event_type = e.typeStr := by
  induction evts with
  | nil => intro p hp; simp [processEvts, emitted] at hp
  | cons e rest ih =>
    intro p hp
    by_cases hcl : isAccountRelatedEvent e = true
    · cases hj : jsonParse e.data with
      | none =>
        simp only [processEvts, hcl, if_true, hj, emitted] at hp
        simp at hp
      | some j =>
        simp only [processEvts, hcl, if_true, hj] at hp
        cases hb : broadcastMsg clients with
        | ok sent =>
          rw [hb] at hp
          cases hr : processEvts clients v ts rest with
          | ok l =>
            rw [hr] at hp
            simp only [emitted, List.mem_cons] at hp
            rcases hp with rfl | hp
            · exact ⟨rfl, rfl, e, List.mem_cons_self _ _, hcl, rfl⟩
            · have := ih p (by simpa [emitted, hr] using hp)
              exact ⟨this.1, this.2.1,
                this.2.2.elim fun x hx =>
                  ⟨x, List.mem_cons_of_mem _ hx.1, hx.2⟩⟩
          | error l =>
            rw [hr] at hp
            simp only [emitted, List.mem_cons] at hp
            rcases hp with rfl | hp
            · exact ⟨rfl, rfl, e, List.mem_cons_self _ _, hcl, rfl⟩
            · have := ih p (by simpa [emitted, hr] using hp)
              exact ⟨this.1, this.2.1,
                this.2.2.elim fun x hx =>
                  ⟨x, List.mem_cons_of_mem _ hx.1, hx.2⟩⟩
        | error sent =>
          rw [hb] at hp
          simp only [emitted, List.mem_singleton] at hp
          subst hp
          exact ⟨rfl, rfl, e, List.mem_cons_self _ _, hcl, rfl⟩
    · simp only [processEvts, hcl, if_false] at hp
      have := ih p hp
      exact ⟨this.1, this.2.1,
        this.2.2.elim fun x hx => ⟨x, List.mem_cons_of_mem _ hx.1, hx.2⟩⟩

/-- Every emission of the transaction loop (also on a faulting run)
carries the version and timestamp of the transaction enclosing its
matched event. -/
theorem processTxns_mem (clients : List Client) (txns : List Txn) :
    ∀ p ∈ emitted (processTxns clients txns),
      ∃ t ∈ txns, p.1.version = t.version ∧
        p.1.timestamp = t.timestampSeconds ∧
        ∃ e ∈ t.events, isAccountRelatedEvent e = true ∧
          p.1.event_type = e.typeStr := by
  induction txns with
  | nil => intro p hp; simp [processTxns, emitted] at hp
  | cons t rest ih =>
    intro p hp
    cases he : processEvts clients t.version t.timestampSeconds t.events with
    | ok l =>
      simp only [processTxns, he] at hp
      cases hr : processTxns clients rest with
      | ok l2 =>
        rw [hr] at hp
        simp only [emitted, List.mem_append] at hp
        rcases hp with hp | hp
        · have := processEvts_mem clients t.version t.timestampSeconds
            t.events p (by simpa [emitted, he] using hp)
          exact ⟨t, List.mem_cons_self _ _, this.1, this.2.1, this.2.2⟩
        · have := ih p (by simpa [emitted, hr] using hp)
          exact this.elim fun x hx => ⟨x, List.mem_cons_of_mem _ hx.1, hx.2⟩
      | error l2 =>
        rw [hr] at hp
        simp only [emitted, List.mem_append] at hp
        rcases hp with hp | hp
        · have := processEvts_mem clients t.version t.timestampSeconds
            t.events p (by simpa [emitted, he] using hp)
          exact ⟨t, List.mem_cons_self _ _, this.1, this.2.1, this.2.2⟩
        · have := ih p (by simpa [emitted, hr] using hp)
          exact this.elim fun x hx => ⟨x, List.mem_cons_of_mem _ hx.1, hx.2⟩
    | error l =>
      simp only [processTxns, he] at hp
      have := processEvts_mem clients t.version t.timestampSeconds
        t.events p (by simpa [emitted, he] using hp)
      exact ⟨t, List.mem_cons_self _ _, this.1, this.2.1, this.2.2⟩

/-! ### Claim theorems -/

/-- C8: the classifier isAccountRelatedEvent is total — it is a plain
Bool-valued function of the event (the try/catch of lines 16-38 is the
`none` branch of jsonParse), and this closed form shows that any decode
failure (jsonParse = none, where JSON.parse throws) yields false, with
matching otherwise exact membership of the type identifier in the
Interest Predicate Table. -/
theorem C8_classifier_total (e : RawEvent) :
    isAccountRelatedEvent e =
      ((jsonParse e.data).isSome && decide (e.typeStr ∈ interestTable)) :=
  isAccountRelatedEvent_eq e

/-- C1 counterexample: an event whose type identifier is exactly the
MarketCreated table entry but whose payload is not JSON is classified
false and produces no Delivered Event, although the claim requires one
regardless of the payload contents. -/
theorem C1_counterexample :
    isAccountRelatedEvent
        { typeStr := MODULE_ADDRESS ++ "::truthoracle::MarketCreated",
          data := "not json" } = false
    ∧ (MODULE_ADDRESS ++ "::truthoracle::MarketCreated") ∈ interestTable
    ∧ (runUnits []
        [.data 2 [⟨10, 99,
          [⟨MODULE_ADDRESS ++ "::truthoracle::MarketCreated",
            "not json"⟩]⟩]]).trace = [] :=
  ⟨by decide, by decide, rfl⟩

/-- C1 (amended): a Delivered Event is produced for exactly those raw
events whose type identifier is an Interest Predicate Table entry AND
whose payload parses as JSON; matching is exact table membership and a
decode failure suppresses delivery even for a matching type
identifier. -/
theorem C1_delivered_iff (v ts : Nat) (evts : List RawEvent) :
    ((runUnits []
        [.data 2 [⟨v, ts, evts⟩]]).trace.map (fun p => p.1.event_type)
      = (evts.filter isAccountRelatedEvent).map RawEvent.typeStr)
    ∧ ∀ e : RawEvent,
        (isAccountRelatedEvent e = true ↔
          e.typeStr ∈ interestTable ∧ (jsonParse e.data).isSome = true) := by
  constructor
  · have hok : ∀ c ∈ ([] : List Client),
        c.readyState = READY_OPEN → c.sendOk = true := by
      intro c hc; simp at hc
    simp [runUnits, processTxns, processEvts_ok [] hok v ts evts,
      List.map_map]
  · intro e
    rw [isAccountRelatedEvent_eq]
    simp [Bool.and_eq_true, and_comm]

/-- C2 counterexample: a session that receives an error unit with code
13 (not the stream-dropped case) followed by a data unit carrying a
matched event ends exhausted — not faulted — and still delivers the
later event, so the session keeps consuming units after such an error
unit instead of propagating a FatalFault. -/
theorem C2_counterexample :
    (runUnits [] [.error ⟨13, "boom"⟩,
      .data 2 [⟨10, 99,
        [⟨MODULE_ADDRESS ++ "::truthoracle::buy_shares",
          "\x7b\x7d"⟩]⟩]]).result = SessionResult.exhausted
    ∧ (runUnits [] [.error ⟨13, "boom"⟩,
      .data 2 [⟨10, 99,
        [⟨MODULE_ADDRESS ++ "::truthoracle::buy_shares",
          "\x7b\x7d"⟩]⟩]]).trace.length = 1 :=
  ⟨by decide, by decide⟩

/-- C2 (amended): an error unit whose fault is not code 14 with details
"Connection dropped" is only logged; the error case has no break, falls
through to the metadata case's break, and the session continues with
the remaining units exactly as if the error unit were absent — no
FatalFault is propagated for it. -/
theorem C2_error_falls_through (clients : List Client) (st : GrpcStatus)
    (rest : List StreamUnit)
    (h : ¬(st.code = 14 ∧ st.details = "Connection dropped")) :
    runUnits clients (.error st :: rest) = runUnits clients rest := by
  simp only [runUnits]
  rw [if_neg h]

/-- C2 witness. -/
theorem C2_error_falls_through_witness :
    runUnits [] [.error { code := 13, details := "boom" }] = runUnits [] [] :=
  C2_error_falls_through [] { code := 13, details := "boom" } [] (by decide)

/-- When the clients before a failing OPEN client all send fine, the
broadcast reaches exactly the OPEN clients before it and then throws. -/
theorem broadcastMsg_failing (pre post : List Client) (c : Client)
    (hpre : ∀ x ∈ pre, x.sendOk = true)
    (hc : c.readyState = READY_OPEN) (hcf : c.sendOk = false) :
    broadcastMsg (pre ++ c :: post) =
      .error (pre.filter (fun x => decide (x.readyState = READY_OPEN))) := by
  induction pre with
  | nil => simp [broadcastMsg, hc, hcf]
  | cons p rest ih =>
    have hp : p.sendOk = true := hpre p (List.mem_cons_self _ _)
    have hrest : ∀ x ∈ rest, x.sendOk = true :=
      fun x hx => hpre x (List.mem_cons_of_mem _ hx)
    by_cases hop : p.readyState = READY_OPEN
    · simp [broadcastMsg, hop, hp, ih hrest, List.filter_cons]
    · simp [broadcastMsg, hop, ih hrest, List.filter_cons]

/-- C3 counterexample: two OPEN clients, the first one's send throws.
The broadcast ends in a throw with the second client unreached, and the
whole Stream Session faults instead of continuing — a failing sink both
prevents delivery to the remaining sink and aborts the session. -/
theorem C3_counterexample :
    (runUnits [⟨READY_OPEN, false⟩, ⟨READY_OPEN, true⟩]
      [.data 2 [⟨1, 2,
        [⟨MODULE_ADDRESS ++ "::truthoracle::MarketCreated",
          "\x7b\x7d"⟩]⟩]]).result = SessionResult.fault
    ∧ broadcastMsg [⟨READY_OPEN, false⟩, ⟨READY_OPEN, true⟩] = .error [] :=
  ⟨by decide, rfl⟩

/-- C3 (amended): a sink send that throws is not caught locally: the
clients after it in iteration order do not receive the event (only the
OPEN clients before it do) and the exception escalates, faulting the
session, to be handled by the outer retry loop. -/
theorem C3_sink_fault_escalates (pre post : List Client) (c : Client)
    (v ts : Nat) (e : RawEvent) (rest : List StreamUnit)
    (hpre : ∀ x ∈ pre, x.sendOk = true)
    (hc : c.readyState = READY_OPEN) (hcf : c.sendOk = false)
    (hcl : isAccountRelatedEvent e = true) :
    broadcastMsg (pre ++ c :: post) =
      .error (pre.filter (fun x => decide (x.readyState = READY_OPEN)))
    ∧ (runUnits (pre ++ c :: post)
        (.data 2 [⟨v, ts, [e]⟩] :: rest)).result = SessionResult.fault := by
  have hb := broadcastMsg_failing pre post c hpre hc hcf
  refine ⟨hb, ?_⟩
  obtain ⟨j, hj⟩ : ∃ j, jsonParse e.data = some j :=
    Option.isSome_iff_exists.mp (classifier_parse_isSome e hcl)
  simp [runUnits, processTxns, processEvts, hcl, hj, hb]

/-- C3 witness. -/
theorem C3_sink_fault_escalates_witness :
    broadcastMsg ([] ++ ⟨READY_OPEN, false⟩ :: [⟨READY_OPEN, true⟩]) =
      .error (List.filter (fun x => decide (x.readyState = READY_OPEN)) [])
    ∧ (runUnits ([] ++ ⟨READY_OPEN, false⟩ :: [⟨READY_OPEN, true⟩])
        (.data 2 [⟨1, 2,
          [⟨MODULE_ADDRESS ++ "::truthoracle::MarketCreated",
            "\x7b\x7d"⟩]⟩] :: [])).result = SessionResult.fault :=
  C3_sink_fault_escalates [] [⟨READY_OPEN, true⟩] ⟨READY_OPEN, false⟩ 1 2
    ⟨MODULE_ADDRESS ++ "::truthoracle::MarketCreated", "\x7b\x7d"⟩ []
    (by intro x hx; simp at hx) (by decide) (by decide) (by decide)

/-- C4: a status unit with code 13 and details containing
"invalid wire type" ends the session with a ResumeNextCursor signal,
and the supervisor then starts the next session at cursor + 1 with
retry counter 0 and no delay. -/
theorem C4_wire_type_skip (clients : List Client) (st : GrpcStatus)
    (rest : List StreamUnit) (r c : Nat)
    (h13 : st.code = 13)
    (hdet : strIncludes st.details "invalid wire type" = true) :
    runUnits clients (.status st :: rest) =
      { trace := [], result := SessionResult.resumeNext }
    ∧ superviseStep ⟨r, c⟩ SessionResult.resumeNext =
        .step ⟨0, c + 1⟩ false := by
  refine ⟨?_, rfl⟩
  simp [runUnits, h13, hdet]

/-- C4 witness. -/
theorem C4_wire_type_skip_witness :
    runUnits [] [.status ⟨13, "grpc: invalid wire type 7"⟩] =
      { trace := [], result := SessionResult.resumeNext }
    ∧ superviseStep ⟨3, 7⟩ SessionResult.resumeNext =
        .step ⟨0, 7 + 1⟩ false :=
  C4_wire_type_skip [] ⟨13, "grpc: invalid wire type 7"⟩ [] 3 7 rfl
    (by decide)

/-- C5: a status or error unit with code 14 and details
"Connection dropped" ends the session immediately with no Delivered
Event emitted for it (empty trace) and a ResumeSameCursor signal, and
the supervisor then restarts at the same cursor with retry counter 0
and no delay. -/
theorem C5_connection_dropped (clients : List Client) (u : StreamUnit)
    (rest : List StreamUnit) (r c : Nat)
    (h : u = .error ⟨14, "Connection dropped"⟩ ∨
      u = .status ⟨14, "Connection dropped"⟩) :
    runUnits clients (u :: rest) =
      { trace := [], result := SessionResult.resumeSame }
    ∧ superviseStep ⟨r, c⟩ SessionResult.resumeSame =
        .step ⟨0, c⟩ false := by
  rcases h with rfl | rfl
  · exact ⟨rfl, rfl⟩
  · exact ⟨rfl, rfl⟩

/-- C5 witness, at the spec's scenario cursor 50. -/
theorem C5_connection_dropped_witness :
    runUnits [] [.error ⟨14, "Connection dropped"⟩] =
      { trace := [], result := SessionResult.resumeSame }
    ∧ superviseStep ⟨2, 50⟩ SessionResult.resumeSame =
        .step ⟨0, 50⟩ false :=
  C5_connection_dropped [] (.error ⟨14, "Connection dropped"⟩) [] 2 50
    (Or.inl rfl)

/-- C6: when every connection attempt faults (no intervening
successful resume), the relay makes exactly MAX_RETRIES + 1 attempts
and then returns normally; giving it more fuel changes nothing, so no
further attempt is ever made, and the catch never rethrows (the run
ends in `some`, never in a propagated fault), so the hosting process
does not crash. -/
theorem C6_retry_bound (clients : List Client)
    (feed : Nat → List StreamUnit) (c : Nat)
    (h : ∀ i, (runUnits clients (feed i)).result = SessionResult.fault) :
    runRelay clients feed (MAX_RETRIES + 1) ⟨0, c⟩ 0 =
      some (MAX_RETRIES + 1)
    ∧ runRelay clients feed (MAX_RETRIES + 2) ⟨0, c⟩ 0 =
      some (MAX_RETRIES + 1) := by
  constructor <;> simp [runRelay, superviseStep, h, MAX_RETRIES]

/-- C6 witness: a feed whose data units carry chainId 3 (not the
expected testnet 2), so every session throws. -/
theorem C6_retry_bound_witness :
    runRelay [] (fun _ => [.data 3 []]) (MAX_RETRIES + 1) ⟨0, 0⟩ 0 =
      some (MAX_RETRIES + 1)
    ∧ runRelay [] (fun _ => [.data 3 []]) (MAX_RETRIES + 2) ⟨0, 0⟩ 0 =
      some (MAX_RETRIES + 1) :=
  C6_retry_bound [] (fun _ => [.data 3 []]) 0 (fun _ => rfl)

/-- C7: every Delivered Event the session builds (also on a run that
later faults) carries the version and timestamp of the transaction
enclosing its matched raw event. -/
theorem C7_version_timestamp (clients : List Client) (txns : List Txn)
    (p : Emit) (hp : p ∈ emitted (processTxns clients txns)) :
    ∃ t ∈ txns, p.1.version = t.version ∧
      p.1.timestamp = t.timestampSeconds ∧
      ∃ e ∈ t.events, isAccountRelatedEvent e = true ∧
        p.1.event_type = e.typeStr :=
  processTxns_mem clients txns p hp

/-- C7 witness. -/
theorem C7_version_timestamp_witness :
    ∃ t ∈ [(⟨10, 99,
        [⟨MODULE_ADDRESS ++ "::truthoracle::MarketCreated",
          "\x7b\x7d"⟩]⟩ : Txn)],
      (10 : Nat) = t.version ∧ (99 : Nat) = t.timestampSeconds ∧
      ∃ e ∈ t.events, isAccountRelatedEvent e = true ∧
        (MODULE_ADDRESS ++ "::truthoracle::MarketCreated") = e.typeStr :=
  C7_version_timestamp []
    [⟨10, 99,
      [⟨MODULE_ADDRESS ++ "::truthoracle::MarketCreated", "\x7b\x7d"⟩]⟩]
    ({ version := 10,
       event_type := MODULE_ADDRESS ++ "::truthoracle::MarketCreated",
       event_data := Json.obj [], timestamp := 99 }, [])
    (List.Mem.head _)

/-- C9: every supervisor transition keeps the cursor or increments it
by exactly one — it never decreases; the wire-type path is the only
incrementing one and the same-cursor and connectivity-retry paths keep
it unchanged. -/
theorem C9_cursor_monotone (st : SupState) (r : SessionResult)
    (nxt : SupState) (d : Bool)
    (h : superviseStep st r = .step nxt d) :
    st.currentVersion ≤ nxt.currentVersion
    ∧ (nxt.currentVersion = st.currentVersion ∨
        nxt.currentVersion = st.currentVersion + 1)
    ∧ (r = .resumeNext → nxt.currentVersion = st.currentVersion + 1)
    ∧ ((r = .resumeSame ∨ r = .fault) →
        nxt.currentVersion = st.currentVersion) := by
  cases r with
  | exhausted => simp [superviseStep] at h
  | resumeSame =>
    simp only [superviseStep, SupOutcome.step.injEq] at h
    obtain ⟨rfl, -⟩ := h
    simp
  | resumeNext =>
    simp only [superviseStep, SupOutcome.step.injEq] at h
    obtain ⟨rfl, -⟩ := h
    simp
  | fault =>
    by_cases hr : st.retryCount < MAX_RETRIES
    · simp only [superviseStep, hr, if_true, SupOutcome.step.injEq] at h
      obtain ⟨rfl, -⟩ := h
      simp
    · simp [superviseStep, hr] at h

/-- C9 witness. -/
theorem C9_cursor_monotone_witness :
    (5 : Nat) ≤ 6
    ∧ ((6 : Nat) = 5 ∨ (6 : Nat) = 5 + 1)
    ∧ (SessionResult.resumeNext = SessionResult.resumeNext →
        (6 : Nat) = 5 + 1)
    ∧ ((SessionResult.resumeNext = SessionResult.resumeSame ∨
        SessionResult.resumeNext = SessionResult.fault) →
        (6 : Nat) = 5) :=
  C9_cursor_monotone ⟨2, 5⟩ .resumeNext ⟨0, 6⟩ false rfl

/-- C10: the broadcast sends a matched event only to clients whose
readyState is OPEN at that moment; a client in any other state is
silently skipped, and its presence changes nothing about what the
other clients receive or about the rest of the session. -/
theorem C10_only_open_clients (pre post : List Client) (c : Client)
    (us : List StreamUnit) (hc : c.readyState ≠ READY_OPEN) :
    (∀ x ∈ recipOf (broadcastMsg (pre ++ c :: post)),
      x.readyState = READY_OPEN)
    ∧ broadcastMsg (pre ++ c :: post) = broadcastMsg (pre ++ post)
    ∧ runUnits (pre ++ c :: post) us = runUnits (pre ++ post) us :=
  ⟨broadcastMsg_recipients_open _,
   broadcastMsg_skip pre post c hc,
   runUnits_congr _ _ (broadcastMsg_skip pre post c hc) us⟩

/-- C10 witness. -/
theorem C10_only_open_clients_witness :
    (∀ x ∈ recipOf (broadcastMsg
        ([] ++ ⟨READY_CLOSED, true⟩ :: [⟨READY_OPEN, true⟩])),
      x.readyState = READY_OPEN)
    ∧ broadcastMsg ([] ++ ⟨READY_CLOSED, true⟩ :: [⟨READY_OPEN, true⟩]) =
        broadcastMsg ([] ++ [⟨READY_OPEN, true⟩])
    ∧ runUnits ([] ++ ⟨READY_CLOSED, true⟩ :: [⟨READY_OPEN, true⟩]) [] =
        runUnits ([] ++ [⟨READY_OPEN, true⟩]) [] :=
  C10_only_open_clients [] [⟨READY_OPEN, true⟩] ⟨READY_CLOSED, true⟩ []
    (by decide)
